import Mathlib

/-!
# Verification of the music-library reconciliation engine

A shallow embedding of the core of `music-playlist-manager.py`:
`MusicFile._parse_filename`, `MusicFile._extract_metadata` (tag fill),
`MusicFile.match_query`, and the `MusicDatabase` operations
(`set_extensions`, `scan_directories`/`_scan_worker`, `search`,
`match_playlist`).  Python strings are modelled as `List Char` (ASCII
model of `str.lower`, `\w`, `\s`), Python floats as `ℚ`, and the
stdlib fuzzy ratio (`difflib.SequenceMatcher(...).ratio()`, not
repository code) as an abstract function parameter.
-/

abbrev Str := List Char

/-- Python `str.lower()` (ASCII model). -/
def lowerStr (s : Str) : Str := s.map Char.toLower

/-- The whitespace class of Python's `\s` and `str.strip()` (ASCII model). -/
def isWs (c : Char) : Bool := c = ' ' || c = '\t' || c = '\n' || c = '\r'

/-- Drop leading whitespace. -/
def dropWsLeft : Str → Str
  | [] => []
  | c :: r => if isWs c then dropWsLeft r else c :: r

/-- Drop trailing whitespace. -/
def dropWsRight (s : Str) : Str := (dropWsLeft s.reverse).reverse

/-- Python `str.strip()`. -/
def pyStrip (s : Str) : Str := dropWsLeft (dropWsRight s)

/-- Split a string at its last `'.'`: `some (before, after)` when a dot
exists. -/
def splitAtLastDot : Str → Option (Str × Str)
  | [] => none
  | c :: rest =>
    match splitAtLastDot rest with
    | some (a, b) => some (c :: a, b)
    | none => if c = '.' then some ([], rest) else none

/-- Python `os.path.splitext` on a basename: split at the last dot unless
every character before it is a dot (so ".bashrc" does not split).  Returns
`(root, extension-with-dot)`. -/
def splitext (s : Str) : Str × Str :=
  match splitAtLastDot s with
  | some (a, b) => if a.all (· = '.') then (s, []) else (a, '.' :: b)
  | none => (s, [])

/-- The separator class `[\s_-]` of the track-number regex. -/
def isTrackSep (c : Char) : Bool := isWs c || c = '_' || c = '-'

/-- Decimal value of a digit string, as computed by Python `int`. -/
def digitsToNat (s : Str) : Nat := s.foldl (fun n c => 10 * n + (c.toNat - '0'.toNat)) 0

/-- Model of `re.match(r'^(\d+)[\s_-]*', stem)` followed by `re.sub` of the same
pattern (lines 52-58): the greedy leading digit run becomes the track
number and the digits plus the following separator run are removed. -/
def stripTrack (stem : Str) : Option Nat × Str :=
  if stem.takeWhile Char.isDigit = [] then (none, stem)
  else (some (digitsToNat (stem.takeWhile Char.isDigit)),
        (stem.dropWhile Char.isDigit).dropWhile isTrackSep)

/-- Split at the first `'-'` (the lazy group 1 of
`r'^(.*?)\s*-\s*(.*?)$'` stops at the first hyphen). -/
def splitFirstHyphen : Str → Option (Str × Str)
  | [] => none
  | c :: rest =>
    if c = '-' then some ([], rest)
    else (splitFirstHyphen rest).map (fun p => (c :: p.1, p.2))

/-- Model of `re.match(r'^(.*?)\s*-\s*(.*?)$')`: split at the first hyphen; the two
`\s*` consume the whitespace runs around it. -/
def patHyphen (s : Str) : Option (Str × Str) :=
  (splitFirstHyphen s).map (fun p => (dropWsRight p.1, dropWsLeft p.2))

/-- Model of `re.match(r'^(.*?)_-_(.*?)$')`: split at the first occurrence of the
literal `"_-_"`. -/
def patUnderscoreHyphen : Str → Option (Str × Str)
  | '_' :: '-' :: '_' :: rest => some ([], rest)
  | c :: rest => (patUnderscoreHyphen rest).map (fun p => (c :: p.1, p.2))
  | [] => none

/-- Model of `re.match(r'^(.*?)_(.*?)$')`: split at the first `'_'`. -/
def patUnderscore : Str → Option (Str × Str)
  | [] => none
  | c :: rest =>
    if c = '_' then some ([], rest)
    else (patUnderscore rest).map (fun p => (c :: p.1, p.2))

/-- The three split patterns of `_parse_filename`, in source order
(lines 61-78; the artist-first and song-first lists are identical). -/
def filenamePatterns : List (Str → Option (Str × Str)) :=
  [patHyphen, patUnderscoreHyphen, patUnderscore]

/-- Assignment of the two regex groups to `(artist, song)`:
`swap = false` is the artist-first pass (lines 84-85),
`swap = true` the song-first pass (lines 93-94); both `.strip()`. -/
def assignGroups (swap : Bool) (g : Str × Str) : Str × Str :=
  if swap then (pyStrip g.2, pyStrip g.1) else (pyStrip g.1, pyStrip g.2)

/-- One pattern loop of `_parse_filename` (lines 81-87 resp. 90-96): each
matching pattern overwrites `(artist, song)`, and the method returns as
soon as both parts are non-empty.  Returns the final `(artist, song)`
pair and whether the early `return` fired. -/
def patternPass (swap : Bool) (stem : Str) :
    List (Str → Option (Str × Str)) → Str × Str → (Str × Str) × Bool
  | [], st => (st, false)
  | p :: ps, st =>
    match p stem with
    | none => patternPass swap stem ps st
    | some g =>
      if (assignGroups swap g).1 ≠ [] ∧ (assignGroups swap g).2 ≠ []
      then (assignGroups swap g, true)
      else patternPass swap stem ps (assignGroups swap g)

/-- Result of `_parse_filename`. -/
structure ParsedName where
  artist : Str
  song : Str
  track_num : Option Nat
deriving DecidableEq

/-- Model of `MusicFile._parse_filename` (lines 47-100): strip the extension,
extract a leading track number, run the artist-first pattern pass, then
the song-first pass (starting from whatever state the first pass left),
and finally fall back to the de-tracked stem as the song when both
fields are still empty. -/
def parseFilename (filename : Str) : ParsedName :=
  let stem := (stripTrack (splitext filename).1).2
  let tn := (stripTrack (splitext filename).1).1
  let p1 := patternPass false stem filenamePatterns ([], [])
  if p1.2 then ⟨p1.1.1, p1.1.2, tn⟩ else
  let p2 := patternPass true stem filenamePatterns p1.1
  if p2.2 then ⟨p2.1.1, p2.1.2, tn⟩ else
  if p2.1.1 = [] ∧ p2.1.2 = [] then ⟨p2.1.1, stem, tn⟩ else ⟨p2.1.1, p2.1.2, tn⟩

example : parseFilename "01 - Artist - Song.mp3".data =
    ⟨"Artist".data, "Song".data, some 1⟩ := by decide

example : parseFilename "Artist_-_Song.flac".data =
    ⟨"Artist_".data, "_Song".data, none⟩ := by decide

example : parseFilename "JustATitle.wav".data =
    ⟨[], "JustATitle".data, none⟩ := by decide

example : parseFilename "01.mp3".data = ⟨[], [], some 1⟩ := by decide

example : parseFilename "-Song.mp3".data = ⟨"Song".data, [], none⟩ := by decide

/-- The parser as §4.1 of the spec describes it (claim C3's reference
behaviour): the artist-first pattern pass followed directly by the
whole-stem fallback, with no song-first pass. -/
def parseFilenameSpec (filename : Str) : ParsedName :=
  let stem := (stripTrack (splitext filename).1).2
  let tn := (stripTrack (splitext filename).1).1
  let p1 := patternPass false stem filenamePatterns ([], [])
  if p1.2 then ⟨p1.1.1, p1.1.2, tn⟩ else
  if p1.1.1 = [] ∧ p1.1.2 = [] then ⟨p1.1.1, stem, tn⟩ else ⟨p1.1.1, p1.1.2, tn⟩

/-- When a pattern pass fires its early return, both parts are non-empty. -/
theorem patternPass_true {swap : Bool} {stem : Str} :
    ∀ {ps : List (Str → Option (Str × Str))} {st : Str × Str},
      (patternPass swap stem ps st).2 = true →
      (patternPass swap stem ps st).1.1 ≠ [] ∧ (patternPass swap stem ps st).1.2 ≠ []
  | [], _, h => by simp [patternPass] at h
  | p :: ps, st, h => by
    rcases hp : p stem with _ | g
    · simp only [patternPass, hp] at h ⊢
      exact patternPass_true h
    · simp only [patternPass, hp] at h ⊢
      by_cases hc : (assignGroups swap g).1 ≠ [] ∧ (assignGroups swap g).2 ≠ []
      · rw [if_pos hc] at h ⊢
        exact hc
      · rw [if_neg hc] at h ⊢
        exact patternPass_true h

/-- Both non-empty is symmetric in the group assignment. -/
theorem assignGroups_cond (swap swap' : Bool) (g : Str × Str) :
    ((assignGroups swap g).1 ≠ [] ∧ (assignGroups swap g).2 ≠ []) ↔
    ((assignGroups swap' g).1 ≠ [] ∧ (assignGroups swap' g).2 ≠ []) := by
  cases swap <;> cases swap' <;> simp [assignGroups, and_comm]

/-- Whether a pattern pass fires depends neither on the group assignment
direction nor on the incoming state. -/
theorem patternPass_snd (swap swap' : Bool) (stem : Str) :
    ∀ (ps : List (Str → Option (Str × Str))) (st st' : Str × Str),
      (patternPass swap stem ps st).2 = (patternPass swap' stem ps st').2
  | [], _, _ => rfl
  | p :: ps, st, st' => by
    rcases hp : p stem with _ | g
    · simp only [patternPass, hp]
      exact patternPass_snd swap swap' stem ps st st'
    · simp only [patternPass, hp]
      by_cases hc : (assignGroups swap g).1 ≠ [] ∧ (assignGroups swap g).2 ≠ []
      · rw [if_pos hc, if_pos ((assignGroups_cond swap swap' g).mp hc)]
      · rw [if_neg hc, if_neg (fun hc' => hc ((assignGroups_cond swap' swap g).mp hc'))]
        exact patternPass_snd swap swap' stem ps _ _

/-- C1 counterexample: on `"Artist_-_Song.flac"` the first pattern
already splits at the bare hyphen and `strip` removes only whitespace,
so the parser yields artist `"Artist_"` and song `"_Song"`, not the
spec's `"Artist"` / `"Song"`. -/
theorem C1_counterexample :
    (parseFilename "Artist_-_Song.flac".data).artist ≠ "Artist".data ∧
    (parseFilename "Artist_-_Song.flac".data).song ≠ "Song".data ∧
    parseFilename "Artist_-_Song.flac".data = ⟨"Artist_".data, "_Song".data, none⟩ := by
  decide

/-- C1 (amended): the parser's results on the spec's three examples,
with the second example corrected: `"01 - Artist - Song.mp3"` →
track 1, `"Artist"`, `"Song"`; `"Artist_-_Song.flac"` → `"Artist_"`,
`"_Song"` (the `" - "` pattern splits at the first hyphen even without
surrounding whitespace, and trimming removes only whitespace);
`"JustATitle.wav"` → empty artist, song `"JustATitle"`, no track. -/
theorem C1_amended_examples :
    parseFilename "01 - Artist - Song.mp3".data = ⟨"Artist".data, "Song".data, some 1⟩ ∧
    parseFilename "Artist_-_Song.flac".data = ⟨"Artist_".data, "_Song".data, none⟩ ∧
    parseFilename "JustATitle.wav".data = ⟨[], "JustATitle".data, none⟩ := by
  decide

/-- C2 counterexample: `"01.mp3"` has the non-empty stem `"01"`, but the
track-number extraction consumes it entirely and the fallback assigns
the now-empty remainder, leaving artist and song both empty. -/
theorem C2_counterexample :
    (splitext "01.mp3".data).1 ≠ [] ∧
    (parseFilename "01.mp3".data).artist = [] ∧
    (parseFilename "01.mp3".data).song = [] := by
  decide

/-- C2 (amended): whenever the stem is still non-empty after the
leading-track-number extraction, the parsed artist and song are never
both empty (the de-tracked stem is used as the song when no split
succeeded); a stem consumed entirely by the track number, like `"01"`,
is exempt along with the empty stem. -/
theorem C2_amended (filename : Str)
    (h : (stripTrack (splitext filename).1).2 ≠ []) :
    ¬((parseFilename filename).artist = [] ∧ (parseFilename filename).song = []) := by
  rw [parseFilename]
  by_cases h1 : (patternPass false (stripTrack (splitext filename).1).2
      filenamePatterns ([], [])).2 = true
  · rw [if_pos h1]
    rintro ⟨ha, _⟩
    exact (patternPass_true h1).1 ha
  · rw [if_neg h1]
    by_cases h2 : (patternPass true (stripTrack (splitext filename).1).2
        filenamePatterns (patternPass false (stripTrack (splitext filename).1).2
          filenamePatterns ([], [])).1).2 = true
    · rw [if_pos h2]
      rintro ⟨ha, _⟩
      exact (patternPass_true h2).1 ha
    · rw [if_neg h2]
      by_cases h3 : (patternPass true (stripTrack (splitext filename).1).2
            filenamePatterns (patternPass false (stripTrack (splitext filename).1).2
              filenamePatterns ([], [])).1).1.1 = [] ∧
          (patternPass true (stripTrack (splitext filename).1).2
            filenamePatterns (patternPass false (stripTrack (splitext filename).1).2
              filenamePatterns ([], [])).1).1.2 = []
      · rw [if_pos h3]
        rintro ⟨_, hs⟩
        exact h (by simpa using hs)
      · rw [if_neg h3]
        simpa using h3

/-- C2 witness: `"a.mp3"` has de-tracked stem `"a"`, so its parse does
not leave both fields empty. -/
theorem C2_amended_witness :
    ¬((parseFilename "a.mp3".data).artist = [] ∧ (parseFilename "a.mp3".data).song = []) :=
  C2_amended "a.mp3".data (by decide)

/-- C3 counterexample: on `"-Song.mp3"` the full parser ends with
artist `"Song"` and empty song (the song-first pass swaps the fields
left by the artist-first pass), while the artist-first-only parser of
the spec yields empty artist and song `"Song"`. -/
theorem C3_counterexample :
    parseFilename "-Song.mp3".data ≠ parseFilenameSpec "-Song.mp3".data ∧
    parseFilename "-Song.mp3".data = ⟨"Song".data, [], none⟩ ∧
    parseFilenameSpec "-Song.mp3".data = ⟨[], "Song".data, none⟩ := by
  decide

/-- C3 (amended): the song-first pass never fires independently — its
early return triggers exactly when the artist-first pass's does, so
whenever the artist-first pass returns a successful split the full
parser agrees with the artist-first-only parser; but when a pattern
matches with one empty side, the song-first pass still overwrites the
fields, so the two parsers can differ (see the counterexample). -/
theorem C3_amended (filename : Str) (st : Str × Str) :
    (patternPass true (stripTrack (splitext filename).1).2 filenamePatterns st).2 =
      (patternPass false (stripTrack (splitext filename).1).2 filenamePatterns ([], [])).2 ∧
    ((patternPass false (stripTrack (splitext filename).1).2 filenamePatterns ([], [])).2 = true →
      parseFilename filename = parseFilenameSpec filename) := by
  constructor
  · exact patternPass_snd true false (stripTrack (splitext filename).1).2 filenamePatterns st ([], [])
  · intro h1
    rw [parseFilename, parseFilenameSpec, if_pos h1, if_pos h1]

/-- C3 witness: on `"01 - Artist - Song.mp3"` the artist-first pass
fires, the song-first pass's flag coincides with it, and the two
parsers agree. -/
theorem C3_amended_witness :
    (patternPass true (stripTrack (splitext "01 - Artist - Song.mp3".data).1).2
        filenamePatterns ([], [])).2 =
      (patternPass false (stripTrack (splitext "01 - Artist - Song.mp3".data).1).2
        filenamePatterns ([], [])).2 ∧
    parseFilename "01 - Artist - Song.mp3".data = parseFilenameSpec "01 - Artist - Song.mp3".data :=
  ⟨(C3_amended "01 - Artist - Song.mp3".data ([], [])).1,
   (C3_amended "01 - Artist - Song.mp3".data ([], [])).2 (by decide)⟩

/-- Extension of a file name as computed in `__init__` and in the scan
worker: `os.path.splitext(...)[1].lower()[1:]` (lines 35, 229, 249). -/
def extOf (file : Str) : Str := (lowerStr (splitext file).2).drop 1

/-- A `MusicFile` record (the spec's TrackRecord): the fields the claims
depend on; `full_path` and `size` are plain filesystem facts carried
along unchanged and are omitted. -/
structure MusicFile where
  filename : Str
  extension : Str
  artist : Str
  song : Str
  track_num : Option Nat
deriving DecidableEq

/-- What the environment supplies to `_extract_metadata` (lines 110-134):
whether `mutagen` is importable, `mutagen.File` returned a truthy object
and it has tags, and the values of `audio["artist"][0]` /
`audio["title"][0]` when those keys are present. -/
structure TagEnv where
  available : Bool
  tagArtist : Option Str
  tagTitle : Option Str
deriving DecidableEq

/-- The extensions for which `_extract_metadata` attempts a tag read
(line 111). -/
def tagExtensions : List Str :=
  ["mp3".data, "flac".data, "ogg".data, "aac".data, "m4a".data]

/-- The artist/song update of `_extract_metadata` (lines 129-134): a tag
is consulted only when the corresponding parser field is empty. -/
def enrichTags (ext : Str) (env : TagEnv) (artist song : Str) : Str × Str :=
  if ext ∈ tagExtensions ∧ env.available = true then
    (if artist = [] then (match env.tagArtist with | some a => a | none => artist) else artist,
     if song = [] then (match env.tagTitle with | some t => t | none => song) else song)
  else (artist, song)

/-- Model of `MusicFile.__init__` (lines 32-45): extension, `_parse_filename`,
then the tag fill of `_extract_metadata`. -/
def mkMusicFile (file : Str) (env : TagEnv) : MusicFile :=
  let p := parseFilename file
  let e := enrichTags (extOf file) env p.artist p.song
  ⟨file, extOf file, e.1, e.2, p.track_num⟩

/-- C9 (confirmed): enrichment never overwrites a non-empty parser
result — a constructed record keeps the parser's artist (resp. song)
whenever it is non-empty, whatever the embedded tags contain; and when
the parser left a field empty, an available tag fills exactly that
field. -/
theorem C9_enrichment_frame (file : Str) (env : TagEnv) :
    ((parseFilename file).artist ≠ [] →
      (mkMusicFile file env).artist = (parseFilename file).artist) ∧
    ((parseFilename file).song ≠ [] →
      (mkMusicFile file env).song = (parseFilename file).song) ∧
    ((parseFilename file).artist = [] → extOf file ∈ tagExtensions →
      env.available = true → ∀ a, env.tagArtist = some a →
      (mkMusicFile file env).artist = a) ∧
    ((parseFilename file).song = [] → extOf file ∈ tagExtensions →
      env.available = true → ∀ t, env.tagTitle = some t →
      (mkMusicFile file env).song = t) := by
  refine ⟨fun ha => ?_, fun hs => ?_, fun ha hx hv a hta => ?_, fun hs hx hv t htt => ?_⟩ <;>
    simp only [mkMusicFile, enrichTags]
  · by_cases hg : extOf file ∈ tagExtensions ∧ env.available = true
    · rw [if_pos hg]
      simp [if_neg ha]
    · rw [if_neg hg]
  · by_cases hg : extOf file ∈ tagExtensions ∧ env.available = true
    · rw [if_pos hg]
      simp [if_neg hs]
    · rw [if_neg hg]
  · rw [if_pos ⟨hx, hv⟩]
    simp [ha, hta]
  · rw [if_pos ⟨hx, hv⟩]
    simp [hs, htt]

/-- C9 witness: `"NoSplitName.mp3"` parses with empty artist and
non-empty song; with an available artist tag `"Tagged"`, the record
keeps the parser's song and takes the tag as artist. -/
theorem C9_enrichment_frame_witness :
    (mkMusicFile "NoSplitName.mp3".data ⟨true, some "Tagged".data, some "Title".data⟩).song =
      (parseFilename "NoSplitName.mp3".data).song ∧
    (mkMusicFile "NoSplitName.mp3".data ⟨true, some "Tagged".data, some "Title".data⟩).artist =
      "Tagged".data :=
  ⟨(C9_enrichment_frame "NoSplitName.mp3".data ⟨true, some "Tagged".data, some "Title".data⟩).2.1
      (by decide),
   (C9_enrichment_frame "NoSplitName.mp3".data ⟨true, some "Tagged".data, some "Title".data⟩).2.2.1
      (by decide) (by decide) rfl "Tagged".data rfl⟩

/-- The `MusicDatabase` state (lines 175-181); `scan_thread` and the
progress callback are omitted (pure control plumbing). -/
structure MusicDatabase where
  music_files : List MusicFile
  directories : List Str
  file_extensions : List Str
  is_scanning : Bool
deriving DecidableEq

/-- Model of `MusicDatabase.set_extensions` (lines 200-202): the given set is
stored verbatim. -/
def set_extensions (db : MusicDatabase) (exts : List Str) : MusicDatabase :=
  { db with file_extensions := exts }

/-- The extension test of `_scan_worker` (lines 249-250): the file's own
extension is lower-cased and dot-stripped, then looked up literally. -/
def scanQualifies (exts : List Str) (file : Str) : Bool :=
  exts.contains (extOf file)

/-- The spec's reading of the filter for claim C8 (modelled from the
spec's words): membership is case-insensitive and ignores a leading dot
on the stored extensions as well. -/
def scanQualifiesSpec (exts : List Str) (file : Str) : Bool :=
  (exts.map (fun e => lowerStr (e.dropWhile (· = '.')))).contains (extOf file)

/-- C8 counterexample: after `set_extensions {"MP3"}` the file `"a.mp3"`
does not qualify, although case-insensitively its extension is in the
given set — the stored filter is not lower-cased. -/
theorem C8_counterexample :
    scanQualifies (set_extensions ⟨[], [], [], false⟩ ["MP3".data]).file_extensions
        "a.mp3".data = false ∧
    scanQualifiesSpec ["MP3".data] "a.mp3".data = true := by
  decide

/-- C8 (amended): `set_extensions` replaces the filter with the given
set verbatim (no lower-casing, no dot-stripping, no other field
touched), and a file qualifies for scanning iff its own extension,
lower-cased and without the dot, is literally a member of the stored
set — so the comparison is case-insensitive only on the file side, and
callers must supply lower-case, dot-free extension strings (as the GUI
does). -/
theorem C8_amended (db : MusicDatabase) (exts : List Str) (file : Str) :
    (set_extensions db exts).file_extensions = exts ∧
    (set_extensions db exts).music_files = db.music_files ∧
    (set_extensions db exts).directories = db.directories ∧
    (set_extensions db exts).is_scanning = db.is_scanning ∧
    scanQualifies (set_extensions db exts).file_extensions file =
      exts.contains (extOf file) := by
  exact ⟨rfl, rfl, rfl, rfl, rfl⟩

/-- The start of `scan_directories` (lines 206-215): reject when already
scanning; otherwise set the scanning flag and clear the record list
before the worker thread starts. -/
def scanStart (db : MusicDatabase) : MusicDatabase :=
  { db with is_scanning := true, music_files := [] }

/-- One file unit of `_scan_worker` (lines 249-254): if the file's
extension passes the filter, construct a `MusicFile` and append it to
the live `music_files` list. -/
def scanStep (env : TagEnv) (db : MusicDatabase) (file : Str) : MusicDatabase :=
  if scanQualifies db.file_extensions file = true
  then { db with music_files := db.music_files ++ [mkMusicFile file env] }
  else db

/-- The end of `_scan_worker` (line 276): clear the scanning flag. -/
def scanFinish (db : MusicDatabase) : MusicDatabase :=
  { db with is_scanning := false }

/-- A complete scan over the walked file list. -/
def scanRun (env : TagEnv) (db : MusicDatabase) (files : List Str) : MusicDatabase :=
  scanFinish (files.foldl (scanStep env) (scanStart db))

/-- The environment with no readable tags (metadata enrichment is a
no-op). -/
def noTags : TagEnv := ⟨false, none, none⟩

/-- The database at the C4 failing input: one completed record, default
extension filter, not scanning. -/
def c4Db : MusicDatabase :=
  ⟨[mkMusicFile "Old - Track.mp3".data noTags], ["lib".data],
   ["mp3".data, "m4a".data, "flac".data, "ogg".data, "aac".data, "wav".data], false⟩

/-- C4 failing run: the state a reader observes after the scan has
started and exactly one of the two walked files has been processed. -/
def c4Mid : MusicDatabase := scanStep noTags (scanStart c4Db) "A - One.mp3".data

/-- C4 (code bug): the scan does not swap the new record set in
atomically — `scan_directories` clears `music_files` in place before
the worker starts and `_scan_worker` appends records one by one to the
same list that `search`/`match_playlist` iterate.  Mid-scan (after the
first of two qualifying files) the visible record set is a proper
intermediate: it differs from the previous completed set and from the
finished new set, contradicting the claim that readers only ever see
one of those two. -/
theorem C4_scan_not_atomic :
    c4Mid.is_scanning = true ∧
    c4Mid.music_files = [mkMusicFile "A - One.mp3".data noTags] ∧
    c4Mid.music_files ≠ c4Db.music_files ∧
    c4Mid.music_files ≠
      (scanRun noTags c4Db ["A - One.mp3".data, "B - Two.mp3".data]).music_files ∧
    (scanRun noTags c4Db ["A - One.mp3".data, "B - Two.mp3".data]).music_files =
      [mkMusicFile "A - One.mp3".data noTags, mkMusicFile "B - Two.mp3".data noTags] := by
  decide

/-- Python `\w` (ASCII model): alphanumeric or underscore. -/
def isWordChar (c : Char) : Bool := c.isAlphanum || c = '_'

/-- Model of `re.sub(r'[^\w\s]', ' ', s)` (lines 143, 147). -/
def scrubPunct (s : Str) : Str := s.map (fun c => if isWordChar c || isWs c then c else ' ')

/-- Worker for `str.split()`: `acc` is the current token, reversed. -/
def splitWsGo (acc : Str) : Str → List Str
  | [] => if acc = [] then [] else [acc.reverse]
  | c :: r =>
    if isWs c then (if acc = [] then splitWsGo [] r else acc.reverse :: splitWsGo [] r)
    else splitWsGo (c :: acc) r

/-- Python `str.split()` with no argument: split on whitespace runs,
dropping empty pieces. -/
def pySplit (s : Str) : List Str := splitWsGo [] s

/-- The query tokens of `match_query` (line 143).  Python wraps them in
a `set`; only emptiness and universal containment are consumed, on
which the token list and the token set agree, so the list is kept. -/
def tokensOf (s : Str) : List Str := pySplit (scrubPunct s)

/-- Python substring containment `p in s`. -/
def isSubstrOf (p : Str) : Str → Bool
  | [] => p.isEmpty
  | c :: t => p.isPrefixOf (c :: t) || isSubstrOf p t

/-- The haystack of `match_query` (line 146):
`f"{filename.lower()} {artist.lower()} {song.lower()}"`. -/
def haystackOf (f : MusicFile) : Str :=
  lowerStr f.filename ++ ' ' :: (lowerStr f.artist ++ ' ' :: lowerStr f.song)

/-- Model of `MusicFile.match_query` (lines 140-170).  `fuzzy` abstracts the
Python stdlib `difflib.SequenceMatcher(None, a, b).ratio()` (library
code, not part of this repository).  The `text_parts` set of line 147
is computed but never used by the method and is not modelled. -/
def match_query (fuzzy : Str → Str → ℚ) (f : MusicFile) (query : Str) (threshold : ℚ) : ℚ :=
  let q := lowerStr query
  let text := haystackOf f
  if (tokensOf q).isEmpty || !((tokensOf q).all (fun part => isSubstrOf part text)) then 0
  else if threshold ≤ 1/2 then 1
  else
    max (fuzzy q text)
      (max (fuzzy q (lowerStr f.artist ++ ' ' :: '-' :: ' ' :: lowerStr f.song))
           (fuzzy q (lowerStr f.song ++ ' ' :: '-' :: ' ' :: lowerStr f.artist)))

/-- C5 (amended): the gate and the fast path of `match_query`, with
the tokens formed by the code's `\w` class (underscores are kept,
unlike the claim's "non-alphanumeric" replacement) — with an empty
token set or any token missing from the haystack the score is exactly
0 for every threshold and every fuzzy ratio; with all tokens present
and `threshold ≤ 1/2`, the score is exactly 1. -/
theorem C5_gate_and_fast_path (fuzzy : Str → Str → ℚ) (f : MusicFile) (q : Str) (t : ℚ) :
    ((tokensOf (lowerStr q) = [] ∨
        ∃ part ∈ tokensOf (lowerStr q), isSubstrOf part (haystackOf f) = false) →
      match_query fuzzy f q t = 0) ∧
    (tokensOf (lowerStr q) ≠ [] →
      (∀ part ∈ tokensOf (lowerStr q), isSubstrOf part (haystackOf f) = true) →
      t ≤ 1/2 → match_query fuzzy f q t = 1) := by
  constructor
  · intro h
    have hcond : ((tokensOf (lowerStr q)).isEmpty ||
        !((tokensOf (lowerStr q)).all (fun part => isSubstrOf part (haystackOf f)))) = true := by
      rcases h with h | ⟨part, hmem, hfalse⟩
      · simp [h]
      · refine Bool.or_eq_true_iff.mpr (Or.inr ?_)
        simp only [Bool.not_eq_true']
        exact List.all_eq_false.mpr ⟨part, hmem, by simp [hfalse]⟩
    simp only [match_query]
    rw [if_pos hcond]
  · intro hne hall ht
    have hcond : ((tokensOf (lowerStr q)).isEmpty ||
        !((tokensOf (lowerStr q)).all (fun part => isSubstrOf part (haystackOf f)))) = false := by
      simp only [Bool.or_eq_false_iff, Bool.not_eq_false', List.all_eq_true]
      exact ⟨by simp [List.isEmpty_iff, hne], hall⟩
    simp only [match_query]
    rw [if_neg (by simp [hcond]), if_pos ht]

/-- A trivial stand-in for the stdlib fuzzy ratio, used by witnesses. -/
def zeroFuzzy : Str → Str → ℚ := fun _ _ => 0

/-- A concrete record used by witnesses. -/
def sampleFile : MusicFile := mkMusicFile "Artist - Song.mp3".data noTags

/-- The tokenization as claim C5's words describe it (modelled from the
spec: lower-case, replace characters that are non-alphanumeric and
non-whitespace — underscore included — with whitespace, then split). -/
def tokensSpec (s : Str) : List Str :=
  pySplit (s.map (fun c => if c.isAlphanum || isWs c then c else ' '))

/-- A record whose haystack contains an underscore: `"a_b.mp3"` parses
to artist `"a"`, song `"b"`. -/
def underscoreFile : MusicFile := mkMusicFile "a_b.mp3".data noTags

/-- C5 witness: against `sampleFile`, the query `"zzz"` scores 0 (token
absent) and the query `"song"` scores 1 at threshold 0. -/
theorem C5_gate_and_fast_path_witness :
    match_query zeroFuzzy sampleFile "zzz".data 0 = 0 ∧
    match_query zeroFuzzy sampleFile "song".data 0 = 1 :=
  ⟨(C5_gate_and_fast_path zeroFuzzy sampleFile "zzz".data 0).1
      (Or.inr ⟨"zzz".data, by decide, by decide⟩),
   (C5_gate_and_fast_path zeroFuzzy sampleFile "song".data 0).2
      (by decide) (by decide) (by norm_num)⟩

/-- C5 counterexample: under the claim's tokenization the query `"_"`
has an empty token set, so the claim demands a score of exactly 0 at
every threshold; but the code's `\w` tokenization keeps `"_"` as a
token, it occurs in the haystack of `"a_b.mp3"`, and at threshold 0 the
score is exactly 1. -/
theorem C5_counterexample :
    tokensSpec (lowerStr "_".data) = [] ∧
    match_query zeroFuzzy underscoreFile "_".data 0 = 1 := by
  constructor
  · decide
  · have hcond : ((tokensOf (lowerStr "_".data)).isEmpty ||
        !((tokensOf (lowerStr "_".data)).all
          (fun part => isSubstrOf part (haystackOf underscoreFile)))) = false := by decide
    simp only [match_query]
    rw [if_neg (by simp [hcond]), if_pos (by norm_num : (0:ℚ) ≤ 1/2)]

/-- The key order of `sorted(results, key=lambda x: x[1], reverse=True)`
(lines 305, 327): descending score. -/
def byScoreDesc (a b : MusicFile × ℚ) : Prop := b.2 ≤ a.2

instance : DecidableRel byScoreDesc :=
  fun a b => inferInstanceAs (Decidable (b.2 ≤ a.2))

instance : IsTotal (MusicFile × ℚ) byScoreDesc :=
  ⟨fun a b => le_total b.2 a.2⟩

instance : IsTrans (MusicFile × ℚ) byScoreDesc :=
  ⟨fun _ _ _ h1 h2 => le_trans h2 h1⟩

/-- Python `sorted(..., key=lambda x: x[1], reverse=True)` is a stable
descending sort on the score; modelled by stable insertion sort. -/
def sortByScoreDesc (l : List (MusicFile × ℚ)) : List (MusicFile × ℚ) :=
  List.insertionSort byScoreDesc l

/-- The score-filter loop shared by `search` (lines 298-302) and
`match_playlist` (lines 320-324): `if score >= threshold:
results.append((music_file, score))`. -/
def scoreLoop (fuzzy : Str → Str → ℚ) (files : List MusicFile) (query : Str) (threshold : ℚ) :
    List (MusicFile × ℚ) :=
  files.foldl (fun acc f =>
    if threshold ≤ match_query fuzzy f query threshold
    then acc ++ [(f, match_query fuzzy f query threshold)] else acc) []

/-- Model of `MusicDatabase.search` (lines 284-305). -/
def search (fuzzy : Str → Str → ℚ) (db : MusicDatabase) (query : Str) (threshold : ℚ) :
    List (MusicFile × ℚ) :=
  if pyStrip query = [] then []
  else sortByScoreDesc (scoreLoop fuzzy db.music_files query threshold)

/-- Model of `MusicDatabase.match_playlist` (lines 307-330); note it has no empty-
entry early return. -/
def match_playlist (fuzzy : Str → Str → ℚ) (db : MusicDatabase) (entries : List Str)
    (threshold : ℚ) : List (Str × List (MusicFile × ℚ)) :=
  entries.foldl (fun acc entry =>
    acc ++ [(entry, sortByScoreDesc (scoreLoop fuzzy db.music_files entry threshold))]) []

/-- The filter loop appends, in encounter order, exactly the scored
records at or above the threshold. -/
theorem scoreLoop_foldl (fuzzy : Str → Str → ℚ) (q : Str) (t : ℚ) :
    ∀ (files : List MusicFile) (acc : List (MusicFile × ℚ)),
      files.foldl (fun acc f =>
        if t ≤ match_query fuzzy f q t
        then acc ++ [(f, match_query fuzzy f q t)] else acc) acc =
      acc ++ (files.map (fun f => (f, match_query fuzzy f q t))).filter
        (fun x => decide (t ≤ x.2))
  | [], acc => by simp
  | f :: fs, acc => by
    rw [List.foldl_cons, List.map_cons, List.filter_cons]
    by_cases hc : t ≤ match_query fuzzy f q t
    · rw [if_pos hc, scoreLoop_foldl fuzzy q t fs]
      simp [hc]
    · rw [if_neg hc, scoreLoop_foldl fuzzy q t fs]
      simp [hc]

/-- The loop `scoreLoop` is the encounter-ordered map-and-filter. -/
theorem scoreLoop_eq (fuzzy : Str → Str → ℚ) (files : List MusicFile) (q : Str) (t : ℚ) :
    scoreLoop fuzzy files q t =
      (files.map (fun f => (f, match_query fuzzy f q t))).filter (fun x => decide (t ≤ x.2)) := by
  rw [scoreLoop, scoreLoop_foldl]
  rfl

/-- Inserting an element does not disturb the sublist of any other score
class, and prepends within its own class (every element it jumps over
has a strictly larger score). -/
theorem filter_orderedInsert (s : ℚ) (x : MusicFile × ℚ) :
    ∀ l : List (MusicFile × ℚ),
      (List.orderedInsert byScoreDesc x l).filter (fun z => decide (z.2 = s)) =
      if x.2 = s then x :: l.filter (fun z => decide (z.2 = s))
      else l.filter (fun z => decide (z.2 = s))
  | [] => by
    by_cases hx : x.2 = s <;> simp [List.orderedInsert, hx]
  | b :: l => by
    rw [List.orderedInsert]
    by_cases hr : byScoreDesc x b
    · rw [if_pos hr]
      by_cases hx : x.2 = s <;> simp [List.filter_cons, hx]
    · rw [if_neg hr]
      have hlt : x.2 < b.2 := lt_of_not_le hr
      rw [List.filter_cons, List.filter_cons, filter_orderedInsert s x l]
      by_cases hx : x.2 = s
      · have hb : ¬ b.2 = s := fun hb => absurd (hx.trans hb.symm) (ne_of_lt hlt)
        simp [hx, hb]
      · by_cases hb : b.2 = s <;> simp [hx, hb]

/-- Stability of the descending sort: each score class keeps its
encounter order. -/
theorem filter_sortByScoreDesc (s : ℚ) :
    ∀ l : List (MusicFile × ℚ),
      (List.insertionSort byScoreDesc l).filter (fun z => decide (z.2 = s)) =
      l.filter (fun z => decide (z.2 = s))
  | [] => rfl
  | x :: l => by
    rw [List.insertionSort, filter_orderedInsert s x, filter_sortByScoreDesc s l,
      List.filter_cons]
    by_cases hx : x.2 = s
    · rw [if_pos hx]
      simp [hx]
    · rw [if_neg hx]
      simp [hx]

/-- C6 (confirmed): `search` returns the empty list on a query that is
empty after trimming; otherwise it returns exactly the records whose
score is at or above the threshold (paired with their scores, as a
permutation of the encounter-ordered filtered list), its output is
sorted by descending score, and every score class appears in original
encounter order (stable sort). -/
theorem C6_search_spec (fuzzy : Str → Str → ℚ) (db : MusicDatabase) (q : Str) (t : ℚ) :
    (pyStrip q = [] → search fuzzy db q t = []) ∧
    List.Pairwise byScoreDesc (search fuzzy db q t) ∧
    (pyStrip q ≠ [] →
      List.Perm (search fuzzy db q t)
        ((db.music_files.map (fun f => (f, match_query fuzzy f q t))).filter
          (fun x => decide (t ≤ x.2))) ∧
      ∀ s : ℚ, (search fuzzy db q t).filter (fun z => decide (z.2 = s)) =
        ((db.music_files.map (fun f => (f, match_query fuzzy f q t))).filter
          (fun x => decide (t ≤ x.2))).filter (fun z => decide (z.2 = s))) := by
  refine ⟨fun h => ?_, ?_, fun h => ⟨?_, fun s => ?_⟩⟩
  · rw [search, if_pos h]
  · rw [search]
    by_cases h : pyStrip q = []
    · rw [if_pos h]
      exact List.Pairwise.nil
    · rw [if_neg h]
      exact List.sorted_insertionSort byScoreDesc _
  · rw [search, if_neg h, ← scoreLoop_eq]
    exact List.perm_insertionSort byScoreDesc _
  · rw [search, if_neg h, ← scoreLoop_eq]
    exact filter_sortByScoreDesc s _

/-- A concrete database used by witnesses. -/
def sampleDb : MusicDatabase := ⟨[sampleFile], [], ["mp3".data], false⟩

/-- C6 witness: the blank query returns `[]`, and for the query
`"song"` at threshold 0 the result is a permutation of the
encounter-ordered filtered score list. -/
theorem C6_search_spec_witness :
    search zeroFuzzy sampleDb " ".data 0 = [] ∧
    List.Perm (search zeroFuzzy sampleDb "song".data 0)
      ((sampleDb.music_files.map (fun f => (f, match_query zeroFuzzy f "song".data 0))).filter
        (fun x => decide ((0:ℚ) ≤ x.2))) :=
  ⟨(C6_search_spec zeroFuzzy sampleDb " ".data 0).1 (by decide),
   ((C6_search_spec zeroFuzzy sampleDb "song".data 0).2.2 (by decide)).1⟩

/-- A fold that appends one output pair per input element is the map. -/
theorem foldl_append_map {α β : Type} (g : α → β) :
    ∀ (l : List α) (acc : List (α × β)),
      l.foldl (fun acc e => acc ++ [(e, g e)]) acc = acc ++ l.map (fun e => (e, g e))
  | [], acc => by simp
  | e :: l, acc => by
    rw [List.foldl_cons, foldl_append_map g l]
    simp

/-- C7 (confirmed): `match_playlist` returns one pair per entry, in
input order — output length equals input length, the first components
are the entries themselves, each inner list is the same filter-and-sort
pipeline `search` runs, and for an entry that is non-blank after
trimming the inner list coincides with `search` on that entry
(`match_playlist` merely lacks `search`'s blank-query early return). -/
theorem C7_match_playlist_shape (fuzzy : Str → Str → ℚ) (db : MusicDatabase)
    (entries : List Str) (t : ℚ) :
    (match_playlist fuzzy db entries t).length = entries.length ∧
    (match_playlist fuzzy db entries t).map Prod.fst = entries ∧
    match_playlist fuzzy db entries t =
      entries.map (fun e => (e, sortByScoreDesc (scoreLoop fuzzy db.music_files e t))) ∧
    (∀ e : Str, pyStrip e ≠ [] →
      sortByScoreDesc (scoreLoop fuzzy db.music_files e t) = search fuzzy db e t) := by
  have h3 : match_playlist fuzzy db entries t =
      entries.map (fun e => (e, sortByScoreDesc (scoreLoop fuzzy db.music_files e t))) := by
    rw [match_playlist, foldl_append_map]
    rfl
  refine ⟨?_, ?_, h3, fun e he => ?_⟩
  · rw [h3, List.length_map]
  · rw [h3, List.map_map]
    exact List.map_id entries
  · rw [search, if_neg he]

/-- C7 witness: on the one-entry playlist `["song"]` the inner list for
`"song"` equals `search` on that entry. -/
theorem C7_match_playlist_shape_witness :
    sortByScoreDesc (scoreLoop zeroFuzzy sampleDb.music_files "song".data 0) =
      search zeroFuzzy sampleDb "song".data 0 :=
  (C7_match_playlist_shape zeroFuzzy sampleDb ["song".data] 0).2.2.2 "song".data (by decide)

/-- State-passing form of `search`: the method reads `self.music_files`
only and never assigns to `self` or to any record field, so the state
comes back unchanged. -/
def searchSt (fuzzy : Str → Str → ℚ) (db : MusicDatabase) (q : Str) (t : ℚ) :
    MusicDatabase × List (MusicFile × ℚ) :=
  (db, search fuzzy db q t)

/-- State-passing form of `match_playlist`; as with `search`, the
method only reads the database. -/
def matchPlaylistSt (fuzzy : Str → Str → ℚ) (db : MusicDatabase) (entries : List Str) (t : ℚ) :
    MusicDatabase × List (Str × List (MusicFile × ℚ)) :=
  (db, match_playlist fuzzy db entries t)

/-- Every pair produced by the filter loop carries a record of the
scanned collection. -/
theorem mem_scoreLoop {fuzzy : Str → Str → ℚ} {files : List MusicFile} {q : Str} {t : ℚ}
    {p : MusicFile × ℚ} (h : p ∈ scoreLoop fuzzy files q t) : p.1 ∈ files := by
  rw [scoreLoop_eq] at h
  obtain ⟨f, hf, rfl⟩ := List.mem_map.mp (List.mem_of_mem_filter h)
  exact hf

/-- Every pair returned by `search` carries a record of the database. -/
theorem mem_search {fuzzy : Str → Str → ℚ} {db : MusicDatabase} {q : Str} {t : ℚ}
    {p : MusicFile × ℚ} (h : p ∈ search fuzzy db q t) : p.1 ∈ db.music_files := by
  rw [search] at h
  by_cases hq : pyStrip q = []
  · rw [if_pos hq] at h
    cases h
  · rw [if_neg hq, sortByScoreDesc] at h
    exact mem_scoreLoop ((List.mem_insertionSort byScoreDesc).mp h)

/-- C10 (confirmed): `search` and `match_playlist` are read-only — in
state-passing form both return the database unchanged (record
collection, directories, extension filter and scanning flag included),
and every record appearing in their results is, field for field, a
member of the unchanged collection (no record is mutated). -/
theorem C10_read_only (fuzzy : Str → Str → ℚ) (db : MusicDatabase) (q : Str)
    (entries : List Str) (t : ℚ) :
    (searchSt fuzzy db q t).1 = db ∧
    (matchPlaylistSt fuzzy db entries t).1 = db ∧
    (searchSt fuzzy db q t).2.all (fun p => decide (p.1 ∈ db.music_files)) = true ∧
    (matchPlaylistSt fuzzy db entries t).2.all
      (fun pr => pr.2.all (fun p => decide (p.1 ∈ db.music_files))) = true := by
  refine ⟨rfl, rfl, ?_, ?_⟩
  · rw [List.all_eq_true]
    intro p hp
    exact decide_eq_true_eq.mpr (mem_search hp)
  · rw [List.all_eq_true]
    intro pr hpr
    rw [List.all_eq_true]
    intro p hp
    rw [matchPlaylistSt, match_playlist, foldl_append_map] at hpr
    obtain ⟨e, _, rfl⟩ := List.mem_map.mp (by simpa using hpr)
    exact decide_eq_true_eq.mpr
      (mem_scoreLoop ((List.mem_insertionSort byScoreDesc).mp (by simpa [sortByScoreDesc] using hp)))
